import Mathlib

/-!
Verification development for the pagination-and-extraction engine of
`src/page.ts` (facebook scraper actor).  The three extraction flows
(`getPostUrls`, `getReviews`, `getPostComments`) and their response
observers are shallowly embedded as pure state-transition functions over
explicit event traces; the single-threaded cooperative scheduling of the
original JavaScript makes a sequential trace semantics faithful.

Helper modules of the repository that are not part of the provided source
(`functions.ts`: `dateRangeItemCounter`, `deferred`, `MinMaxDates`,
`pageSelectors`) are modelled from the specification; each such
definition carries a doc comment starting with `Modelled from the spec:`.
-/

namespace FbScraper

/-- Character-list equality test that one list starts with another,
used to implement the JavaScript `String.prototype.includes`. -/
def charsLeading : List Char → List Char → Bool
  | [], _ => true
  | _ :: _, [] => false
  | a :: as, b :: bs => a == b && charsLeading as bs

/-- Substring occurrence on character lists. -/
def charsContain (pat : List Char) : List Char → Bool
  | [] => pat.isEmpty
  | c :: cs => charsLeading pat (c :: cs) || charsContain pat cs

/-- JavaScript `s.includes(pat)`. -/
def includesStr (s pat : String) : Bool :=
  charsContain pat.toList s.toList

/-- JavaScript `Map.prototype.has` over an insertion-ordered
association list. -/
def hasKey {α : Type} (m : List (String × α)) (k : String) : Bool :=
  m.any (fun p => p.1 == k)

/-- Modelled from the spec: `MinMaxDates` / `DateWindow` (§3) — inclusive
`[min, max]` instant bounds with optional ends; `compare` is the
`accepts(timestamp)` membership test used by `date.compare` in
`page.ts`. -/
structure DateWindow where
  minDate : Option Int
  maxDate : Option Int
deriving DecidableEq

/-- Is `ts` at or below the window's upper bound (no upper bound accepts
everything)? -/
def DateWindow.belowMax (w : DateWindow) (ts : Int) : Bool :=
  match w.maxDate with
  | none => true
  | some m => decide (ts ≤ m)

/-- Is `ts` at or above the window's lower bound? -/
def DateWindow.aboveMin (w : DateWindow) (ts : Int) : Bool :=
  match w.minDate with
  | none => true
  | some m => decide (m ≤ ts)

/-- `date.compare(ts)`: inclusive window membership. -/
def DateWindow.compareB (w : DateWindow) (ts : Int) : Bool :=
  w.belowMax ts && w.aboveMin ts

/-- Modelled from the spec: `RangeCounterState` (§3, §4.5) of the missing
`dateRangeItemCounter` from `functions.ts`. -/
structure RangeCounterState where
  calls : Nat
  emptyCalls : Nat
  totalSeen : Nat
  inRangeCount : Nat
  overRangeStreak : Nat
deriving DecidableEq

/-- Fresh counter, created per extraction call. -/
def rcInit : RangeCounterState :=
  { calls := 0, emptyCalls := 0, totalSeen := 0, inRangeCount := 0, overRangeStreak := 0 }

/-- Modelled from the spec: `counter.empty(b)` — page.ts calls it with
`!posts.length`; it increments `emptyCalls` when the batch was empty. -/
def rcEmpty (b : Bool) (s : RangeCounterState) : RangeCounterState :=
  if b then { s with emptyCalls := s.emptyCalls + 1 } else s

/-- Modelled from the spec: `counter.add(n)` (§4.5) — one call per
extraction batch, `totalSeen` grows by the batch size. -/
def rcAdd (n : Nat) (s : RangeCounterState) : RangeCounterState :=
  { s with calls := s.calls + 1, totalSeen := s.totalSeen + n }

/-- Modelled from the spec: `counter.time(ts)` (§4.5).  Newer than the
upper bound: reject without touching the streak.  Within bounds: accept,
count it in range and reset the streak.  Older than the lower bound:
reject and grow the over-range streak. -/
def rcTime (w : DateWindow) (ts : Int) (s : RangeCounterState) : Bool × RangeCounterState :=
  if ¬ w.belowMax ts then (false, s)
  else if w.aboveMin ts then
    (true, { s with inRangeCount := s.inRangeCount + 1, overRangeStreak := 0 })
  else (false, { s with overRangeStreak := s.overRangeStreak + 1 })

/-- Modelled from the spec: the `overRangeStreak` stop threshold is an
undocumented platform tunable (§9); its exact value does not matter to
any claim below. -/
def overRangeThreshold : Nat := 4

/-- Modelled from the spec: `counter.isOver()` (§4.5). -/
def rcIsOver (s : RangeCounterState) : Bool :=
  decide (s.overRangeStreak > overRangeThreshold)

/-- Snapshot shape returned by `counter.stats()`, with the field names
destructured in `page.ts` (`calls`, `empty`, `total`, `inRange`). -/
structure RCStats where
  calls : Nat
  empty : Nat
  total : Nat
  inRange : Nat
deriving DecidableEq

/-- Modelled from the spec: `counter.stats()` (§4.5). -/
def rcStats (s : RangeCounterState) : RCStats :=
  { calls := s.calls, empty := s.emptyCalls, total := s.totalSeen, inRange := s.inRangeCount }

/-- Fatal errors of the engine (`InfoError` instances thrown in
`page.ts`, distinguished by their message). -/
inductive FbErr
  | rateLimited
  | redirectedToLogin
  | failedToLoadPosts
  | postsNotLoading
  | jsonParseError
  | selectorError
  | other
deriving DecidableEq

/-- Modelled from the spec: the Completion Gate (§4.1) implemented by
`deferred()` from `functions.ts`: single-resolution, settling twice is a
no-op, first settlement wins. -/
inductive Gate
  | pending
  | resolved
  | rejected (e : FbErr)
deriving DecidableEq

/-- Has the gate been settled (the `finish.resolved` poll)? -/
def Gate.settled : Gate → Bool
  | .pending => false
  | _ => true

/-- `finish.resolve()`: graceful settlement, no-op once settled. -/
def Gate.resolve (g : Gate) : Gate :=
  match g with
  | .pending => .resolved
  | _ => g

/-- `finish.reject(e)`: fatal settlement, no-op once settled. -/
def Gate.reject (g : Gate) (e : FbErr) : Gate :=
  match g with
  | .pending => .rejected e
  | _ => g

/-- Observable side effects emitted by an observer invocation (besides
its state change). -/
inductive ObsAction
  | sleep (ms : Nat)
  | postpone
  | emitComment (id : String)
  | enqueue (key : String)
deriving DecidableEq

/-- How one `control.run(...)` engine race ends, abstracting
`DelayAbort` from `delayable-idle-abort-promise`: the protected work
finishes, the idle-abort timer fires (`AbortError`), or a rejection of
the Completion Gate propagates. -/
inductive EngineOutcome
  | success
  | abort
  | fatal (e : FbErr)
deriving DecidableEq

/-- What the transport-status classification of an observer decides for
one response. -/
inductive StatusAction
  | resolveGate
  | throwLoginRedirect
  | keep
deriving DecidableEq

/-- Login markers checked by `interceptAjax` in `getPostUrls`
(page.ts:340): `res.url().includes('login') || res.url().includes('next=')`. -/
def postsLoginMarker (url : String) : Bool :=
  includesStr url "login" || includesStr url "next="

/-- Login markers checked by `interceptGrapQL` in `getPostComments`
(page.ts:950): `res.url().includes('next=') || res.url().includes('/login')`. -/
def commentsLoginMarker (url : String) : Bool :=
  includesStr url "next=" || includesStr url "/login"

/-- Status classification of `interceptAjax` in `getPostUrls`
(page.ts:335-345): non-200/302 resolves the gate; a 302 whose url has a
login marker throws `Redirected to login`; otherwise keep processing. -/
def postsStatusCheck (status : Nat) (url : String) : StatusAction :=
  if status ≠ 200 ∧ status ≠ 302 then .resolveGate
  else if status = 302 ∧ postsLoginMarker url then .throwLoginRedirect
  else .keep

/-- Status classification of `interceptAjax` in `getReviews`
(page.ts:491-501): non-200/302 resolves the gate; every 302 throws
`Redirected to login` — there is no url inspection in this flow. -/
def reviewsStatusCheck (status : Nat) : StatusAction :=
  if status ≠ 200 ∧ status ≠ 302 then .resolveGate
  else if status = 302 then .throwLoginRedirect
  else .keep

/-- Status classification of `interceptGrapQL` in `getPostComments`
(page.ts:945-955). -/
def commentsStatusCheck (status : Nat) (url : String) : StatusAction :=
  if status ≠ 200 ∧ status ≠ 302 then .resolveGate
  else if status = 302 ∧ commentsLoginMarker url then .throwLoginRedirect
  else .keep

/-- What the rate-limit branch does after incrementing the counter. -/
inductive RLOutcome
  | sleepFor (ms : Nat)
  | throwRateLimited
deriving DecidableEq

/-- The shared error-payload handling of both observers
(page.ts:320-332 and 928-941): `rateLimitCount++`, throw `Rate limited`
once it passes 20, otherwise sleep `rateLimitCount * 30` ms. -/
def rateLimitBump (c : Nat) : Nat × RLOutcome :=
  let c := c + 1
  if c > 20 then (c, .throwRateLimited) else (c, .sleepFor (c * 30))

/-- One network response as seen by `interceptAjax` in `getPostUrls`:
whether its content type is json, the outcome of `res.json()` when it is
(`none` = the parse threw, `some e` = parsed with `isError` verdict `e`,
where `isError` of `functions.ts` is abstracted as a per-response flag),
the transport status and target url. -/
structure AjaxEvent where
  contentTypeJson : Bool
  body : Option Bool
  status : Nat
  url : String
deriving DecidableEq

/-- Mutable environment of `interceptAjax` in `getPostUrls`: the
`rateLimitCount` local, the shared Completion Gate and the `isReady`
flag guarding `finish.reject` in the handler's catch. -/
structure PostsObs where
  rateLimitCount : Nat
  gate : Gate
  isReady : Bool
deriving DecidableEq

/-- `interceptAjax` of `getPostUrls` (page.ts:317-351).  Note that this
handler never polls `finish.resolved` or `page.isClosed()`; every
response is processed.  Internal throws are caught by its trailing
`catch`, which rejects the gate only when `isReady` holds. -/
def interceptAjaxStep (s : PostsObs) (e : AjaxEvent) : PostsObs × List ObsAction :=
  let errored := e.contentTypeJson && (e.body == some true)
  if e.contentTypeJson ∧ e.body = none then
    -- res.json() threw inside the condition of page.ts:319
    ({ s with gate := if s.isReady then s.gate.reject .jsonParseError else s.gate }, [])
  else if errored then
    match rateLimitBump s.rateLimitCount with
    | (c, .throwRateLimited) =>
        ({ s with rateLimitCount := c,
                  gate := if s.isReady then s.gate.reject .rateLimited else s.gate }, [])
    | (c, .sleepFor ms) => ({ s with rateLimitCount := c }, [ObsAction.sleep ms])
  else
    let s := { s with rateLimitCount := 0 }
    match postsStatusCheck e.status e.url with
    | .resolveGate => ({ s with gate := s.gate.resolve }, [])
    | .throwLoginRedirect =>
        ({ s with gate := if s.isReady then s.gate.reject .redirectedToLogin else s.gate }, [])
    | .keep => (s, [])

/-- A response as seen by `interceptAjax` in `getReviews`: only the
status and url are consulted. -/
structure ReviewsEvent where
  status : Nat
  url : String
deriving DecidableEq

/-- Mutable environment of `interceptAjax` in `getReviews`. -/
structure ReviewsObs where
  gate : Gate
  isReady : Bool
deriving DecidableEq

/-- `interceptAjax` of `getReviews` (page.ts:489-507).  No gate or
page-closed poll here either; every 302 is escalated regardless of its
url. -/
def interceptAjaxReviewsStep (s : ReviewsObs) (e : ReviewsEvent) : ReviewsObs × List ObsAction :=
  match reviewsStatusCheck e.status with
  | .resolveGate => ({ s with gate := s.gate.resolve }, [])
  | .throwLoginRedirect =>
      ({ s with gate := if s.isReady then s.gate.reject .redirectedToLogin else s.gate }, [])
  | .keep => (s, [])

/-- One post entry produced by `pageSelectors.posts`, as consumed by the
loop of `getPosts` (page.ts:226-298).  `valid` abstracts the ft-field
checks of page.ts:247-254 (attachment style, ids, psn blacklist);
`publishTime` is the already-converted `post_context.publish_time`;
`parsedUrl` is the `storyFbToDesktopPermalink` result (`none` when the
permalink could not be built); `enqueueable` abstracts the
`/groups/`-and-`/profile.php` path filter of page.ts:280. -/
structure FtPost where
  isPinned : Bool
  valid : Bool
  publishTime : Int
  parsedUrl : Option String
  enqueueable : Bool
deriving DecidableEq

/-- State threaded through the post-discovery loop: the `urls` set (an
insertion-ordered list of unique keys), the Range Counter and the
Completion Gate. -/
structure PostsLoopState where
  urls : List String
  counter : RangeCounterState
  gate : Gate
deriving DecidableEq

/-- Date classification of one post (page.ts:259-261): `counter.time`
for ordinary posts, plain `date.compare` for pinned posts (which must
not move the counter's metrics). -/
def postClassify (w : DateWindow) (p : FtPost) (c : RangeCounterState) :
    Bool × RangeCounterState :=
  if ¬ p.isPinned then rcTime w p.publishTime c
  else (w.compareB p.publishTime, c)

/-- The `for (const { isPinned, url, ft } of posts)` loop of `getPosts`
(page.ts:226-298).  Each item first postpones the idle-abort; the
quota/over-range check runs at the top of every iteration and settles
the gate (rejecting with `Failed to load posts` when the never-loaded
heuristic `calls && empty > total` holds) before returning; invalid
items are skipped; surviving items are classified and, when in range,
new and parseable, appended to `urls` (and enqueued unless filtered by
path shape). -/
def getPostsLoop (w : DateWindow) (mx : Nat) :
    PostsLoopState → List FtPost → PostsLoopState × List ObsAction
  | st, [] => (st, [])
  | st, p :: rest =>
    if st.urls.length ≥ mx ∨ rcIsOver st.counter then
      let stats := rcStats st.counter
      if stats.calls ≠ 0 ∧ stats.empty > stats.total then
        ({ st with gate := st.gate.reject .failedToLoadPosts }, [ObsAction.postpone])
      else
        ({ st with gate := st.gate.resolve }, [ObsAction.postpone])
    else if ¬ p.valid then
      let r := getPostsLoop w mx st rest
      (r.1, ObsAction.postpone :: r.2)
    else
      let inRange := (postClassify w p st.counter).1
      let st := { st with counter := (postClassify w p st.counter).2 }
      match p.parsedUrl with
      | some k =>
        if inRange ∧ ¬ st.urls.contains k then
          let st := { st with urls := st.urls ++ [k] }
          let enq := if p.enqueueable then [ObsAction.enqueue k] else []
          let r := getPostsLoop w mx st rest
          (r.1, ObsAction.postpone :: (enq ++ r.2))
        else
          let r := getPostsLoop w mx st rest
          (r.1, ObsAction.postpone :: r.2)
      | none =>
          let r := getPostsLoop w mx st rest
          (r.1, ObsAction.postpone :: r.2)

/-- One `getPosts` invocation (page.ts:220-312): `counter.empty` and
`counter.add` on the fetched batch, then the item loop. -/
def getPosts (w : DateWindow) (mx : Nat) (st : PostsLoopState) (batch : List FtPost) :
    PostsLoopState × List ObsAction :=
  let cnt := rcAdd batch.length (rcEmpty (batch.length == 0) st.counter)
  getPostsLoop w mx { st with counter := cnt } batch

/-- The accumulation performed by the post-discovery engine: one
`getPosts` call per scroll cycle (page.ts:390), starting from the urls
seeded out of `request.userData.urls` (page.ts:210) and a fresh
counter. -/
def postUrlsEngineFinal (w : DateWindow) (mx : Nat) (seed : List String)
    (batches : List (List FtPost)) : PostsLoopState :=
  batches.foldl (fun st b => (getPosts w mx st b).1)
    { urls := seed, counter := rcInit, gate := .pending }

/-- Exit record of one `getPostUrls` call: the returned value or the
propagated error, the value written into `request.userData.urls`
(`none` when the write at page.ts:433 never ran), and whether the
response observer is still attached when the call returns. -/
structure PostUrlsExit where
  result : Except FbErr Nat
  userDataUrls : Option (List String)
  observerAttached : Bool

/-- Whole-call skeleton of `getPostUrls` (page.ts:196-443).  `max = 0`
returns 0 before attaching anything (page.ts:206-208).  Otherwise the
observer is attached and everything up to the return runs inside
`try/catch/finally`: an `AbortError` outcome is swallowed unless the
never-loaded heuristic holds on the counter (page.ts:417-431), any
other error is rethrown, and the `finally` (page.ts:432-438) writes
`request.userData.urls` and detaches the observer on every one of these
paths.  The engine accumulation itself is `postUrlsEngineFinal`; the
`outcome` parameter abstracts how the `control.run` race ended. -/
def getPostUrlsCall (w : DateWindow) (mx : Nat) (seed : List String)
    (batches : List (List FtPost)) (outcome : EngineOutcome) : PostUrlsExit :=
  if mx = 0 then
    { result := .ok 0, userDataUrls := none, observerAttached := false }
  else
    let st := postUrlsEngineFinal w mx seed batches
    let afterTry : Except FbErr Unit :=
      match outcome with
      | .success => .ok ()
      | .fatal e => .error e
      | .abort =>
        let stats := rcStats st.counter
        if stats.calls ≠ 0 ∧ stats.empty > stats.total then .error .failedToLoadPosts
        else .ok ()
    { result := afterTry.map (fun _ => st.urls.length),
      userDataUrls := some st.urls,
      observerAttached := false }

/-- One review as delivered by `pageSelectors.reviews`.  `url` is the
stable key; a missing/empty url (falsy in the JavaScript guard at
page.ts:473) is `none`. -/
structure FbReview where
  url : Option String
  date : Int
  text : String
deriving DecidableEq

/-- The merge of one review into the accumulator (page.ts:473-476):
insert only keyed reviews whose key is not yet present, appending in
insertion order. -/
def reviewsMergeStep (reviews : List (String × FbReview)) (r : FbReview) :
    List (String × FbReview) :=
  match r.url with
  | some u => if hasKey reviews u then reviews else reviews ++ [(u, r)]
  | none => reviews

/-- One `getReviewsFromPage` invocation (page.ts:471-485): for each
review of the fetched batch, merge it, then — after the merge — resolve
the gate and break once `reviews.size >= max`. -/
def getReviewsFromPageRun (mx : Nat) (reviews : List (String × FbReview)) (g : Gate) :
    List FbReview → List (String × FbReview) × Gate
  | [] => (reviews, g)
  | r :: rest =>
    let reviews' := reviewsMergeStep reviews r
    if reviews'.length ≥ mx then (reviews', g.resolve)
    else getReviewsFromPageRun mx reviews' g rest

/-- The scroll-driven part of the review engine: one
`getReviewsFromPage` per `maybeStop` cycle (page.ts:520-527).  A new
cycle only runs while the Completion Gate is unsettled and the quota is
unmet — once `finish.resolve()` fires (which in this flow happens
exactly when the quota is reached) the `control.run` race settles
before the next 500 ms scroll cycle can deliver another batch. -/
def reviewsEngine (mx : Nat) :
    List (String × FbReview) → Gate → List (List FbReview) →
    List (String × FbReview) × Gate
  | m, g, [] => (m, g)
  | m, g, b :: rest =>
    if g.settled ∨ m.length ≥ mx then (m, g)
    else
      let r := getReviewsFromPageRun mx m g b
      reviewsEngine mx r.1 r.2 rest

/-- Final accumulator of one `getReviews` call whose initial fetch
succeeded: the unconditional pre-engine `getReviewsFromPage`
(page.ts:511) over `b0`, then the engine cycles. -/
def reviewsRunFinal (mx : Nat) (seed : List (String × FbReview))
    (b0 : List FbReview) (batches : List (List FbReview)) :
    List (String × FbReview) × Gate :=
  let r := getReviewsFromPageRun mx seed .pending b0
  reviewsEngine mx r.1 r.2 batches

/-- The post-processing of page.ts:543-558: keep only reviews whose
date the window accepts.  The per-item permalink rewriting
(`storyFbToDesktopPermalink`, url canonicalization) is out of scope per
spec §1 and is dropped here. -/
def processedReviews (w : DateWindow) (reviews : List (String × FbReview)) :
    List FbReview :=
  (reviews.map Prod.snd).filter (fun s => w.compareB s.date)

/-- Exit record of one `getReviews` call: the processed review list (or
`none` for the `max = 0` early return) or the propagated error, the
value written into `request.userData.reviews` (`none` when the write at
page.ts:538 never ran), and whether the response observer is still
attached when the call returns. -/
structure ReviewsExit where
  result : Except FbErr (Option (List FbReview))
  userDataReviews : Option (List (String × FbReview))
  observerAttached : Bool

/-- Whole-call skeleton of `getReviews` (page.ts:448-569).  `max = 0`
returns before attaching anything.  Otherwise the observer is attached
(page.ts:509) and then — still OUTSIDE the `try/finally` — the initial
`getReviewsFromPage()` of page.ts:511 runs; if its review fetch throws
(`initialBatch = .error`, see the engine-side guard at page.ts:521-525
for evidence that it can), the exception propagates out of the call
without ever reaching the `finally` of page.ts:537-541: neither the
`userData` write-back nor `page.off` happens.  On the `.ok` path the
engine runs inside `try/catch/finally`: an `AbortError` is swallowed
(page.ts:532-535), other errors are rethrown, and the `finally` writes
`request.userData.reviews` and detaches the observer. -/
def getReviewsCall (w : DateWindow) (mx : Nat) (seed : List (String × FbReview))
    (initialBatch : Except Unit (List FbReview)) (batches : List (List FbReview))
    (outcome : EngineOutcome) : ReviewsExit :=
  if mx = 0 then
    { result := .ok none, userDataReviews := none, observerAttached := false }
  else
    match initialBatch with
    | .error _ =>
        { result := .error .selectorError, userDataReviews := none, observerAttached := true }
    | .ok b0 =>
        let mFinal := (reviewsRunFinal mx seed b0 batches).1
        let afterTry : Except FbErr Unit :=
          match outcome with
          | .success => .ok ()
          | .abort => .ok ()
          | .fatal e => .error e
        { result := afterTry.map (fun _ => some (processedReviews w mFinal)),
          userDataReviews := some mFinal,
          observerAttached := false }

/-- One comment node of a GraphQL payload (`data.edges[i].node`),
already date-converted. -/
structure CommentNode where
  id : String
  created_time : Int
  name : String
  text : String
deriving DecidableEq

/-- A stored comment (the record built at page.ts:899-910, with the
out-of-scope author/profile adapters collapsed into `name`/`text`). -/
structure FbComment where
  date : Int
  name : String
  text : String
deriving DecidableEq

/-- `data.feedback.display_comments` of a GraphQL payload: the
upstream running total, the edge list (edges may carry a null node —
page.ts:890 filters those), and the `page_info.has_next_page` cursor. -/
structure DisplayComments where
  count : Nat
  edges : List (Option CommentNode)
  has_next_page : Option Bool
deriving DecidableEq

/-- A parsed GraphQL payload: the `isError` marker of `functions.ts`
abstracted as a flag, and the optional `data.feedback.display_comments`
section. -/
structure FbGraphQlPayload where
  errored : Bool
  display_comments : Option DisplayComments
deriving DecidableEq

/-- One network response as seen by `interceptGrapQL`: whether
`page.isClosed()` held on arrival, the target url, the result of
`res.json()` (`none` = the parse threw and was logged, page.ts:864-868),
and the transport status. -/
structure GraphQlEvent where
  closedNow : Bool
  url : String
  json : Option FbGraphQlPayload
  status : Nat
deriving DecidableEq

/-- Mutable environment shared by `getPostComments` and its observer:
the comments accumulator seeded from `request.userData.comments`, the
`count` and (tightenable) `max` locals, `rateLimitCount`, the Range
Counter, the Completion Gate, and the `canStartAdding` / `isReady`
flags. -/
structure CommentsState where
  comments : List (String × FbComment)
  count : Nat
  maxCur : Nat
  rateLimitCount : Nat
  counter : RangeCounterState
  gate : Gate
  canStartAdding : Bool
  isReady : Bool
deriving DecidableEq

/-- The comment built from a node. -/
def mkComment (p : CommentNode) : FbComment :=
  { date := p.created_time, name := p.name, text := p.text }

/-- The `for (const p of data.edges...)` loop of page.ts:890-917: known
ids are skipped outright; otherwise the loop breaks once
`comments.size >= max`; new ids are classified through `counter.time`
and only accepted ones are merged (and handed to the `add` consumer
callback, emitted here as an action). -/
def commentsEdgeLoop (w : DateWindow) :
    RangeCounterState → List (String × FbComment) → Nat → List CommentNode →
    RangeCounterState × List (String × FbComment) × List ObsAction
  | cnt, comments, _, [] => (cnt, comments, [])
  | cnt, comments, mx, p :: rest =>
    if hasKey comments p.id then commentsEdgeLoop w cnt comments mx rest
    else if comments.length ≥ mx then (cnt, comments, [])
    else
      let acc := (rcTime w p.created_time cnt).1
      let cnt' := (rcTime w p.created_time cnt).2
      if acc then
        let r := commentsEdgeLoop w cnt' (comments ++ [(p.id, mkComment p)]) mx rest
        (r.1, r.2.1, ObsAction.emitComment p.id :: r.2.2)
      else commentsEdgeLoop w cnt' comments mx rest

/-- Intermediate control flow of one `interceptGrapQL` invocation:
fall through to the status check, return early, or throw (to be caught
by the handler's trailing catch). -/
inductive StepFlow
  | fall (s : CommentsState) (acts : List ObsAction)
  | ret (s : CommentsState) (acts : List ObsAction)
  | thr (s : CommentsState) (acts : List ObsAction) (err : FbErr)

/-- The state a `StepFlow` carries. -/
def StepFlow.st : StepFlow → CommentsState
  | .fall s _ => s
  | .ret s _ => s
  | .thr s _ _ => s

/-- The count/max part of `processDisplay` (page.ts:879-884): raise
`count` to the upstream total and tighten `max` down to it when
smaller. -/
def updCountMax (s : CommentsState) (data : DisplayComments) : CommentsState :=
  if data.count > s.count then
    if data.count < s.maxCur then
      { s with count := data.count, maxCur := data.count }
    else { s with count := data.count }
  else s

/-- The edge part of `processDisplay` (page.ts:886-918). -/
def updEdges (w : DateWindow) (s : CommentsState) (data : DisplayComments) :
    CommentsState × List ObsAction :=
  if data.edges.length > 0 then
    let r := commentsEdgeLoop w (rcAdd data.edges.length s.counter)
      s.comments s.maxCur (data.edges.filterMap id)
    ({ s with counter := r.1, comments := r.2.1 },
     ObsAction.postpone :: r.2.2)
  else (s, ([] : List ObsAction))

/-- The `has_next_page` part of `processDisplay` (page.ts:920-925). -/
def updHasNext (s : CommentsState) (data : DisplayComments) : CommentsState :=
  if data.has_next_page == some false ∨ s.comments.length ≥ s.maxCur
      ∨ rcIsOver s.counter then
    { s with gate := s.gate.resolve }
  else s

/-- Processing of a present `data.feedback.display_comments` section
(page.ts:878-925): raise `count` to the upstream total and tighten
`max` down to it when smaller; when edges are present, `counter.add`
on the raw edge count, postpone the idle-abort and run the merge loop
over the non-null nodes; finally resolve the gate when the cursor says
there is no next page, the quota is met, or the counter is over
range. -/
def processDisplay (w : DateWindow) (s : CommentsState) (data : DisplayComments) :
    CommentsState × List ObsAction :=
  let pr := updEdges w (updCountMax s data) data
  (updHasNext pr.1 data, pr.2)

/-- The GraphQL-payload part of one `interceptGrapQL` invocation
(page.ts:861-943): payloads (url matching `api/graphql/` while
`canStartAdding`) are parsed; non-errored payloads reset
`rateLimitCount` and process `display_comments`; errored ones bump the
rate-limit counter — sleeping and returning early below the threshold,
throwing `Rate limited` above it.  Non-matching responses fall straight
through. -/
def graphqlInner (w : DateWindow) (s : CommentsState) (e : GraphQlEvent) : StepFlow :=
  if includesStr e.url "api/graphql/" && s.canStartAdding then
    match e.json with
    | none => .fall s []
    | some j =>
      if j.errored then
        match rateLimitBump s.rateLimitCount with
        | (c, .throwRateLimited) => .thr { s with rateLimitCount := c } [] .rateLimited
        | (c, .sleepFor ms) => .ret { s with rateLimitCount := c } [ObsAction.sleep ms]
      else
        let s := { s with rateLimitCount := 0 }
        match j.display_comments with
        | none => .fall s []
        | some data => .fall (processDisplay w s data).1 (processDisplay w s data).2
  else .fall s []

/-- What happens after the GraphQL part: an early return passes
through, a thrown error reaches the handler's catch (rejecting the gate
only when `isReady`), and everything else runs the status
classification of page.ts:945-955, whose own throw reaches the same
catch. -/
def applyStepFlow (e : GraphQlEvent) : StepFlow → CommentsState × List ObsAction
  | .ret s acts => (s, acts)
  | .thr s acts err =>
      ({ s with gate := if s.isReady then s.gate.reject err else s.gate }, acts)
  | .fall s acts =>
    match commentsStatusCheck e.status e.url with
    | .resolveGate => ({ s with gate := s.gate.resolve }, acts)
    | .throwLoginRedirect =>
        ({ s with gate := if s.isReady then s.gate.reject .redirectedToLogin else s.gate },
         acts)
    | .keep => (s, acts)

/-- `interceptGrapQL` of `getPostComments` (page.ts:855-961).  Unlike
the post/review observers, it first polls `page.isClosed()` and
`finish.resolved` and ignores the response entirely when either holds;
otherwise the GraphQL part runs and its outcome is finished by
`applyStepFlow`. -/
def interceptGrapQLStep (w : DateWindow) (s : CommentsState) (e : GraphQlEvent) :
    CommentsState × List ObsAction :=
  if e.closedNow || s.gate.settled then (s, [])
  else applyStepFlow e (graphqlInner w s e)

/-- Initial shared state of a `getPostComments` call once its engine is
armed: accumulator seeded from `request.userData.comments`
(page.ts:839), `count = 0` (page.ts:846), `max` as requested, fresh
counter and gate; `canStartAdding` is true from page.ts:968-970 for the
default `RANKED_THREADED` mode and `isReady` from page.ts:1078. -/
def initCommentsState (mx : Nat) (seed : List (String × FbComment)) : CommentsState :=
  { comments := seed, count := 0, maxCur := mx, rateLimitCount := 0,
    counter := rcInit, gate := .pending, canStartAdding := true, isReady := true }

/-- Final observer state after a trace of responses. -/
def commentsEngineFinal (w : DateWindow) (mx : Nat) (seed : List (String × FbComment))
    (events : List GraphQlEvent) : CommentsState :=
  events.foldl (fun s e => (interceptGrapQLStep w s e).1) (initCommentsState mx seed)

/-- Exit record of one `getPostComments` call. -/
structure CommentsExit where
  result : Except FbErr Nat
  userDataComments : Option (List (String × FbComment))
  observerAttached : Bool

/-- Whole-call skeleton of `getPostComments` (page.ts:819-1149).
`max = 0` returns 0 before attaching anything (page.ts:835-837).
Otherwise the observer is attached (page.ts:963) and everything
following runs inside `try/catch/finally`: `AbortError` is swallowed
(page.ts:1134-1139), other errors are rethrown, and the `finally`
(page.ts:1140-1144) writes `request.userData.comments` and detaches the
observer on every path; the value returned on the non-throwing paths is
the `count` local (page.ts:1148), not the accumulator size. -/
def getPostCommentsCall (w : DateWindow) (mx : Nat) (seed : List (String × FbComment))
    (events : List GraphQlEvent) (outcome : EngineOutcome) : CommentsExit :=
  if mx = 0 then
    { result := .ok 0, userDataComments := none, observerAttached := false }
  else
    let sF := commentsEngineFinal w mx seed events
    let afterTry : Except FbErr Unit :=
      match outcome with
      | .success => .ok ()
      | .abort => .ok ()
      | .fatal e => .error e
    { result := afterTry.map (fun _ => sF.count),
      userDataComments := some sF.comments,
      observerAttached := false }

/-- The `display_comments.count` carried by a response that the
GraphQL-payload part would process (guards mirror `graphqlInner`). -/
def payloadCount (s : CommentsState) (e : GraphQlEvent) : Option Nat :=
  if includesStr e.url "api/graphql/" && s.canStartAdding then
    match e.json with
    | none => none
    | some j =>
      if j.errored then none
      else
        match j.display_comments with
        | some data => some data.count
        | none => none
  else none

/-- The `display_comments.count` that one response contributes to the
`count` local, when the observer actually processes its payload (the
guards mirror `interceptGrapQLStep`). -/
def displayCountOf (s : CommentsState) (e : GraphQlEvent) : Option Nat :=
  if e.closedNow || s.gate.settled then none
  else payloadCount s e

/-- All upstream-reported `display_comments.count` values observed
along a trace. -/
def observedDisplayCounts (w : DateWindow) (s : CommentsState) :
    List GraphQlEvent → List Nat
  | [] => []
  | e :: rest =>
    (match displayCountOf s e with | some c => [c] | none => []) ++
      observedDisplayCounts w (interceptGrapQLStep w s e).1 rest

/-- Streak of consecutive error-marked payloads: the `rateLimitCount`
value after `k` consecutive error responses starting from a fresh (or
just-reset) counter. -/
def afterErrors : Nat → Nat
  | 0 => 0
  | k + 1 => (rateLimitBump (afterErrors k)).1

/-- Fixture: the unrestricted date window (no `minDate`/`maxDate`). -/
def unboundedWindow : DateWindow := ⟨none, none⟩

/-- Fixture: a comment-flow state whose Completion Gate has already
resolved. -/
def settledCommentsState : CommentsState :=
  { initCommentsState 5 [] with gate := .resolved }

/-! ### Helper lemmas -/

/-- The accept verdict of `counter.time` is exactly window membership;
only the streak bookkeeping depends on the counter state. -/
lemma rcTime_fst (w : DateWindow) (ts : Int) (s : RangeCounterState) :
    (rcTime w ts s).1 = w.compareB ts := by
  unfold rcTime DateWindow.compareB
  by_cases h1 : w.belowMax ts
  · by_cases h2 : w.aboveMin ts <;> simp [h1, h2]
  · simp [h1]

/-- The post classification verdict — `counter.time` for ordinary posts,
`date.compare` for pinned ones — is window membership either way. -/
lemma postClassify_fst (w : DateWindow) (p : FtPost) (c : RangeCounterState) :
    (postClassify w p c).1 = w.compareB p.publishTime := by
  unfold postClassify
  by_cases h : p.isPinned <;> simp [h, rcTime_fst]

/-- Every url present after a post batch was either already accumulated
or came from a batch item whose permalink is that url and whose date the
window accepts. -/
lemma getPostsLoop_mem (w : DateWindow) (mx : Nat) :
    ∀ (batch : List FtPost) (st : PostsLoopState) (k : String),
      k ∈ (getPostsLoop w mx st batch).1.urls →
      k ∈ st.urls ∨ ∃ p, p ∈ batch ∧ p.parsedUrl = some k ∧ w.compareB p.publishTime = true := by
  intro batch
  induction batch with
  | nil =>
    intro st k h
    exact Or.inl (by simpa [getPostsLoop] using h)
  | cons p rest ih =>
    intro st k h
    simp only [getPostsLoop] at h
    split at h
    · split at h <;> exact Or.inl (by simpa using h)
    · split at h
      · rcases ih st k (by simpa using h) with h' | ⟨q, hq, hqq⟩
        · exact Or.inl h'
        · exact Or.inr ⟨q, List.mem_cons_of_mem _ hq, hqq⟩
      · split at h
        · rename_i k' heq
          split at h
          · rename_i hcond
            rcases ih _ k (by simpa using h) with h' | ⟨q, hq, hqq⟩
            · rcases List.mem_append.mp h' with h'' | h''
              · exact Or.inl h''
              · have hk : k = k' := by simpa using h''
                subst hk
                refine Or.inr ⟨p, List.mem_cons_self _ _, heq, ?_⟩
                have := hcond.1
                rwa [postClassify_fst] at this
            · exact Or.inr ⟨q, List.mem_cons_of_mem _ hq, hqq⟩
          · rcases ih _ k (by simpa using h) with h' | ⟨q, hq, hqq⟩
            · exact Or.inl (by simpa using h')
            · exact Or.inr ⟨q, List.mem_cons_of_mem _ hq, hqq⟩
        · rcases ih _ k (by simpa using h) with h' | ⟨q, hq, hqq⟩
          · exact Or.inl (by simpa using h')
          · exact Or.inr ⟨q, List.mem_cons_of_mem _ hq, hqq⟩

/-- The post loop never grows the url set past the quota: the quota
check at the top of each iteration precedes any insertion. -/
lemma getPostsLoop_len (w : DateWindow) (mx : Nat) :
    ∀ (batch : List FtPost) (st : PostsLoopState), st.urls.length ≤ mx →
      (getPostsLoop w mx st batch).1.urls.length ≤ mx := by
  intro batch
  induction batch with
  | nil => intro st h; simpa [getPostsLoop] using h
  | cons p rest ih =>
    intro st h
    simp only [getPostsLoop]
    by_cases hguard : st.urls.length ≥ mx ∨ rcIsOver st.counter = true
    · rw [if_pos hguard]
      split <;> simpa using h
    · rw [if_neg hguard]
      have hlt : st.urls.length < mx := by
        rcases Nat.lt_or_ge st.urls.length mx with h' | h'
        · exact h'
        · exact absurd (Or.inl h') hguard
      split
      · exact ih st h
      · cases hp : p.parsedUrl with
        | some k' =>
          simp only [hp]
          split
          · exact ih _ (by simpa using hlt)
          · exact ih _ (by simpa using h)
        | none =>
          simp only [hp]
          exact ih _ (by simpa using h)

/-- `getPosts` preserves the quota bound (it only touches the counter
before entering the loop). -/
lemma getPosts_len (w : DateWindow) (mx : Nat) (st : PostsLoopState)
    (batch : List FtPost) (h : st.urls.length ≤ mx) :
    (getPosts w mx st batch).1.urls.length ≤ mx := by
  unfold getPosts
  exact getPostsLoop_len w mx batch _ (by simpa using h)

/-- The whole post-discovery accumulation respects the quota whenever
the seeded snapshot does. -/
lemma postUrlsEngineFinal_len (w : DateWindow) (mx : Nat) (seed : List String)
    (batches : List (List FtPost)) (h : seed.length ≤ mx) :
    (postUrlsEngineFinal w mx seed batches).urls.length ≤ mx := by
  unfold postUrlsEngineFinal
  suffices H : ∀ (bs : List (List FtPost)) (st : PostsLoopState), st.urls.length ≤ mx →
      (bs.foldl (fun st b => (getPosts w mx st b).1) st).urls.length ≤ mx by
    exact H batches _ (by simpa using h)
  intro bs
  induction bs with
  | nil => intro st hst; simpa using hst
  | cons b rest ih =>
    intro st hst
    exact ih _ (getPosts_len w mx st b hst)

/-- Merging one review grows the accumulator by at most one entry. -/
lemma reviewsMergeStep_len (m : List (String × FbReview)) (r : FbReview) :
    (reviewsMergeStep m r).length ≤ m.length + 1 := by
  unfold reviewsMergeStep
  cases r.url with
  | none => simp
  | some u =>
    by_cases h : hasKey m u = true <;> simp [h]

/-- A `getReviewsFromPage` invocation entered strictly below the quota
cannot exceed it: each insertion grows the map by one and the
`size >= max` check fires immediately after. -/
lemma getReviewsFromPageRun_len (mx : Nat) :
    ∀ (batch : List FbReview) (m : List (String × FbReview)) (g : Gate),
      m.length < mx → (getReviewsFromPageRun mx m g batch).1.length ≤ mx := by
  intro batch
  induction batch with
  | nil => intro m g h; simpa [getReviewsFromPageRun] using Nat.le_of_lt h
  | cons r rest ih =>
    intro m g h
    simp only [getReviewsFromPageRun]
    have hm : (reviewsMergeStep m r).length ≤ mx := by
      have := reviewsMergeStep_len m r
      omega
    split
    · simpa using hm
    · rename_i hlt
      have : (reviewsMergeStep m r).length < mx := by omega
      exact ih _ _ this

/-- The scroll-cycle part of the review engine respects the quota. -/
lemma reviewsEngine_len (mx : Nat) :
    ∀ (batches : List (List FbReview)) (m : List (String × FbReview)) (g : Gate),
      m.length ≤ mx → (reviewsEngine mx m g batches).1.length ≤ mx := by
  intro batches
  induction batches with
  | nil => intro m g h; simpa [reviewsEngine] using h
  | cons b rest ih =>
    intro m g h
    simp only [reviewsEngine]
    split
    · simpa using h
    · rename_i hstop
      have hlt : m.length < mx := by
        rcases Nat.lt_or_ge m.length mx with h' | h'
        · exact h'
        · exact absurd (Or.inr h') hstop
      exact ih _ _ (getReviewsFromPageRun_len mx b m g hlt)

/-- The whole review accumulation respects the quota when seeded
strictly below it. -/
lemma reviewsRunFinal_len (mx : Nat) (seed : List (String × FbReview))
    (b0 : List FbReview) (batches : List (List FbReview)) (h : seed.length < mx) :
    (reviewsRunFinal mx seed b0 batches).1.length ≤ mx := by
  unfold reviewsRunFinal
  exact reviewsEngine_len mx batches _ _ (getReviewsFromPageRun_len mx b0 seed _ h)

/-- Every comment present after the edge loop was either already
accumulated or came from a node with that key whose date the window
accepts. -/
lemma commentsEdgeLoop_mem (w : DateWindow) :
    ∀ (nodes : List CommentNode) (cnt : RangeCounterState)
      (m : List (String × FbComment)) (mx : Nat) (kc : String × FbComment),
      kc ∈ (commentsEdgeLoop w cnt m mx nodes).2.1 →
      kc ∈ m ∨ ∃ p, p ∈ nodes ∧ p.id = kc.1 ∧ w.compareB p.created_time = true := by
  intro nodes
  induction nodes with
  | nil => intro cnt m mx kc h; exact Or.inl (by simpa [commentsEdgeLoop] using h)
  | cons p rest ih =>
    intro cnt m mx kc h
    simp only [commentsEdgeLoop] at h
    split at h
    · rcases ih _ _ _ _ h with h' | ⟨q, hq, hqq⟩
      · exact Or.inl h'
      · exact Or.inr ⟨q, List.mem_cons_of_mem _ hq, hqq⟩
    · split at h
      · exact Or.inl (by simpa using h)
      · split at h
        · rename_i hacc
          rcases ih _ _ _ _ (by simpa using h) with h' | ⟨q, hq, hqq⟩
          · rcases List.mem_append.mp h' with h'' | h''
            · exact Or.inl h''
            · have : kc = (p.id, mkComment p) := by simpa using h''
              subst this
              refine Or.inr ⟨p, List.mem_cons_self _ _, rfl, ?_⟩
              rwa [rcTime_fst] at hacc
          · exact Or.inr ⟨q, List.mem_cons_of_mem _ hq, hqq⟩
        · rcases ih _ _ _ _ h with h' | ⟨q, hq, hqq⟩
          · exact Or.inl h'
          · exact Or.inr ⟨q, List.mem_cons_of_mem _ hq, hqq⟩

/-- The edge loop never grows the accumulator past its (current) quota,
nor past any common bound on both. -/
lemma commentsEdgeLoop_len (w : DateWindow) (M : Nat) :
    ∀ (nodes : List CommentNode) (cnt : RangeCounterState)
      (m : List (String × FbComment)) (mx : Nat),
      m.length ≤ M → mx ≤ M →
      (commentsEdgeLoop w cnt m mx nodes).2.1.length ≤ M := by
  intro nodes
  induction nodes with
  | nil => intro cnt m mx h hm; simpa [commentsEdgeLoop] using h
  | cons p rest ih =>
    intro cnt m mx h hm
    simp only [commentsEdgeLoop]
    split
    · exact ih _ _ _ h hm
    · split
      · simpa using h
      · rename_i hsz
        have hlt : m.length < mx := Nat.lt_of_not_ge hsz
        split
        · refine ih _ _ _ ?_ hm
          have : m.length + 1 ≤ mx := hlt
          simpa using Nat.le_trans this hm
        · exact ih _ _ _ h hm

/-- `applyStepFlow` only touches the gate of the state its flow
carries. -/
lemma applyStepFlow_fields (e : GraphQlEvent) (f : StepFlow) :
    ((applyStepFlow e f).1).count = f.st.count ∧
    ((applyStepFlow e f).1).comments = f.st.comments ∧
    ((applyStepFlow e f).1).maxCur = f.st.maxCur ∧
    ((applyStepFlow e f).1).rateLimitCount = f.st.rateLimitCount := by
  cases f with
  | ret s acts => simp [applyStepFlow, StepFlow.st]
  | thr s acts err => simp [applyStepFlow, StepFlow.st]
  | fall s acts =>
    unfold applyStepFlow StepFlow.st
    cases commentsStatusCheck e.status e.url <;> simp

/-- `updCountMax` sets `count` to the running maximum, never raises the
quota, and leaves the accumulator alone. -/
lemma updCountMax_fields (s : CommentsState) (data : DisplayComments) :
    (updCountMax s data).count = Nat.max s.count data.count ∧
      (updCountMax s data).maxCur ≤ s.maxCur ∧
      (updCountMax s data).comments = s.comments ∧
      (updCountMax s data).rateLimitCount = s.rateLimitCount := by
  unfold updCountMax
  by_cases h1 : data.count > s.count
  · by_cases h2 : data.count < s.maxCur <;> simp [h1, h2] <;> omega
  · simp [h1]; omega

/-- `updEdges` leaves everything but the counter and the accumulator
alone. -/
lemma updEdges_fields (w : DateWindow) (s : CommentsState) (data : DisplayComments) :
    (updEdges w s data).1.count = s.count ∧
      (updEdges w s data).1.maxCur = s.maxCur ∧
      (updEdges w s data).1.rateLimitCount = s.rateLimitCount := by
  unfold updEdges
  split <;> simp

/-- `updEdges` keeps the accumulator within any bound that also bounds
the quota. -/
lemma updEdges_len (w : DateWindow) (s : CommentsState) (data : DisplayComments)
    (M : Nat) (h1 : s.comments.length ≤ M) (h2 : s.maxCur ≤ M) :
    (updEdges w s data).1.comments.length ≤ M := by
  unfold updEdges
  split
  · simpa using commentsEdgeLoop_len w M _ _ _ _ h1 h2
  · simpa using h1

/-- `updHasNext` only touches the gate. -/
lemma updHasNext_fields (s : CommentsState) (data : DisplayComments) :
    (updHasNext s data).count = s.count ∧
      (updHasNext s data).maxCur = s.maxCur ∧
      (updHasNext s data).comments = s.comments ∧
      (updHasNext s data).rateLimitCount = s.rateLimitCount := by
  unfold updHasNext
  split <;> simp

/-- None of the three display updates touches `rateLimitCount`. -/
lemma processDisplay_rlc (w : DateWindow) (s : CommentsState) (data : DisplayComments) :
    (processDisplay w s data).1.rateLimitCount = s.rateLimitCount := by
  unfold processDisplay
  rw [(updHasNext_fields _ data).2.2.2, (updEdges_fields w _ data).2.2,
    (updCountMax_fields s data).2.2.2]

/-- The rate-limit bump always increments the counter by one,
whichever outcome it picks. -/
lemma rateLimitBump_fst (c : Nat) : (rateLimitBump c).1 = c + 1 := by
  simp only [rateLimitBump]
  split <;> rfl

/-- `processDisplay` raises the `count` local to the upstream total
(and never lowers it). -/
lemma processDisplay_count (w : DateWindow) (s : CommentsState) (data : DisplayComments) :
    (processDisplay w s data).1.count = Nat.max s.count data.count := by
  unfold processDisplay
  rw [(updHasNext_fields _ data).1, (updEdges_fields w _ data).1,
    (updCountMax_fields s data).1]

/-- `processDisplay` never raises the effective quota. -/
lemma processDisplay_maxCur (w : DateWindow) (s : CommentsState) (data : DisplayComments) :
    (processDisplay w s data).1.maxCur ≤ s.maxCur := by
  unfold processDisplay
  rw [(updHasNext_fields _ data).2.1, (updEdges_fields w _ data).2.1]
  exact (updCountMax_fields s data).2.1

/-- `processDisplay` keeps the accumulator within any bound that also
bounds the current quota. -/
lemma processDisplay_len (w : DateWindow) (s : CommentsState) (data : DisplayComments)
    (M : Nat) (h1 : s.comments.length ≤ M) (h2 : s.maxCur ≤ M) :
    (processDisplay w s data).1.comments.length ≤ M := by
  unfold processDisplay
  rw [(updHasNext_fields _ data).2.2.1]
  refine updEdges_len w _ data M ?_ ?_
  · rw [(updCountMax_fields s data).2.2.1]; exact h1
  · exact Nat.le_trans (updCountMax_fields s data).2.1 h2

/-- The `count` of the state carried out of the GraphQL part. -/
lemma graphqlInner_count (w : DateWindow) (s : CommentsState) (e : GraphQlEvent) :
    (graphqlInner w s e).st.count = Nat.max s.count ((payloadCount s e).getD 0) := by
  unfold graphqlInner payloadCount
  by_cases hu : (includesStr e.url "api/graphql/" && s.canStartAdding) = true
  · rw [if_pos hu, if_pos hu]
    cases hj : e.json with
    | none => simp [StepFlow.st]
    | some j =>
      by_cases herr : j.errored = true
      · rcases hb : rateLimitBump s.rateLimitCount with ⟨c, o⟩
        cases o <;> simp [herr, hb, StepFlow.st]
      · cases hd : j.display_comments with
        | none => simp [herr, hd, StepFlow.st]
        | some data => simp [herr, hd, StepFlow.st, processDisplay_count]
  · rw [if_neg hu, if_neg hu]
    simp [StepFlow.st]

/-- The GraphQL part keeps the accumulator and the effective quota
within any bound that holds for both on entry. -/
lemma graphqlInner_len (w : DateWindow) (s : CommentsState) (e : GraphQlEvent)
    (M : Nat) (h1 : s.comments.length ≤ M) (h2 : s.maxCur ≤ M) :
    (graphqlInner w s e).st.comments.length ≤ M ∧
      (graphqlInner w s e).st.maxCur ≤ M := by
  unfold graphqlInner
  by_cases hu : (includesStr e.url "api/graphql/" && s.canStartAdding) = true
  · rw [if_pos hu]
    cases hj : e.json with
    | none => simp [StepFlow.st, h1, h2]
    | some j =>
      by_cases herr : j.errored = true
      · rcases hb : rateLimitBump s.rateLimitCount with ⟨c, o⟩
        cases o <;> simp [herr, hb, StepFlow.st, h1, h2]
      · cases hd : j.display_comments with
        | none => simp [herr, hd, StepFlow.st, h1, h2]
        | some data =>
          simp only [herr, hd, if_neg, StepFlow.st]
          constructor
          · exact processDisplay_len w _ data M (by simpa using h1) (by simpa using h2)
          · exact Nat.le_trans (processDisplay_maxCur w _ data) (by simpa using h2)
  · rw [if_neg hu]
    simp [StepFlow.st, h1, h2]

/-- One observer invocation raises `count` exactly to the
`display_comments.count` it processed (when it processed one). -/
lemma interceptGrapQLStep_count (w : DateWindow) (s : CommentsState) (e : GraphQlEvent) :
    (interceptGrapQLStep w s e).1.count = Nat.max s.count ((displayCountOf s e).getD 0) := by
  unfold interceptGrapQLStep displayCountOf
  by_cases hg : (e.closedNow || s.gate.settled) = true
  · simp [hg]
  · rw [if_neg hg, if_neg hg,
      (applyStepFlow_fields e (graphqlInner w s e)).1, graphqlInner_count]

/-- One observer invocation keeps the accumulator and the effective
quota within any bound that holds for both on entry. -/
lemma interceptGrapQLStep_len (w : DateWindow) (s : CommentsState) (e : GraphQlEvent)
    (M : Nat) (h1 : s.comments.length ≤ M) (h2 : s.maxCur ≤ M) :
    (interceptGrapQLStep w s e).1.comments.length ≤ M ∧
      (interceptGrapQLStep w s e).1.maxCur ≤ M := by
  unfold interceptGrapQLStep
  by_cases hg : (e.closedNow || s.gate.settled) = true
  · simp [hg, h1, h2]
  · rw [if_neg hg,
      (applyStepFlow_fields e (graphqlInner w s e)).2.1,
      (applyStepFlow_fields e (graphqlInner w s e)).2.2.1]
    exact graphqlInner_len w s e M h1 h2

/-- Along any trace, the final `count` is the running maximum of the
observed upstream totals. -/
lemma commentsFold_count (w : DateWindow) :
    ∀ (events : List GraphQlEvent) (s : CommentsState),
      (events.foldl (fun s e => (interceptGrapQLStep w s e).1) s).count =
        List.foldl Nat.max s.count (observedDisplayCounts w s events) := by
  intro events
  induction events with
  | nil => intro s; simp [observedDisplayCounts]
  | cons e rest ih =>
    intro s
    simp only [List.foldl_cons, observedDisplayCounts]
    rw [ih]
    rw [interceptGrapQLStep_count]
    cases hd : displayCountOf s e <;> simp [hd]

/-- Along any trace, the accumulator and effective quota stay within
any bound holding for both initially. -/
lemma commentsFold_len (w : DateWindow) (M : Nat) :
    ∀ (events : List GraphQlEvent) (s : CommentsState),
      s.comments.length ≤ M → s.maxCur ≤ M →
      (events.foldl (fun s e => (interceptGrapQLStep w s e).1) s).comments.length ≤ M := by
  intro events
  induction events with
  | nil => intro s h1 _; simpa using h1
  | cons e rest ih =>
    intro s h1 h2
    simp only [List.foldl_cons]
    rcases interceptGrapQLStep_len w s e M h1 h2 with ⟨ha, hb⟩
    exact ih _ ha hb

/-! ### Claim theorems -/

/-- C8: for every Accumulator in the three flows, inserting an item
whose stable key is already present is a no-op — the merge leaves the
map (hence the first stored value and the size) unchanged, regardless
of the new payload's value: reviews skip present keys in
`reviewsMergeStep`, the comment edge loop skips present ids outright,
and the post loop never re-adds a contained url (only its counter
classification advances). -/
theorem c8_idempotent_insert :
    (∀ (m : List (String × FbReview)) (r : FbReview) (u : String),
        r.url = some u → hasKey m u = true → reviewsMergeStep m r = m)
    ∧ (∀ (w : DateWindow) (cnt : RangeCounterState) (m : List (String × FbComment))
        (mx : Nat) (p : CommentNode) (rest : List CommentNode),
        hasKey m p.id = true →
        commentsEdgeLoop w cnt m mx (p :: rest) = commentsEdgeLoop w cnt m mx rest)
    ∧ (∀ (w : DateWindow) (mx : Nat) (st : PostsLoopState) (p : FtPost)
        (rest : List FtPost) (k : String),
        p.parsedUrl = some k → st.urls.contains k = true →
        ¬ (st.urls.length ≥ mx ∨ rcIsOver st.counter = true) → p.valid = true →
        (getPostsLoop w mx st (p :: rest)).1.urls =
          (getPostsLoop w mx
            { st with counter := (postClassify w p st.counter).2 } rest).1.urls) := by
  refine ⟨?_, ?_, ?_⟩
  · intro m r u hu hk
    unfold reviewsMergeStep
    rw [hu]
    simp [hk]
  · intro w cnt m mx p rest hk
    conv_lhs => rw [commentsEdgeLoop]
    rw [if_pos hk]
  · intro w mx st p rest k hp hk hguard hv
    conv_lhs => rw [getPostsLoop]
    rw [if_neg hguard, if_neg (by simp [hv]), hp]
    have hmem : k ∈ st.urls := by simpa using hk
    simp [hmem]

/-- C8 witness: concrete duplicate insertions in all three flows. -/
theorem c8_idempotent_insert_witness :
    reviewsMergeStep [("u", ⟨some "u", 1, "a"⟩)] ⟨some "u", 2, "b"⟩
        = [("u", (⟨some "u", 1, "a"⟩ : FbReview))]
    ∧ commentsEdgeLoop ⟨none, none⟩ rcInit [("c", ⟨1, "n", "t"⟩)] 5 [⟨"c", 2, "m", "x"⟩]
        = commentsEdgeLoop ⟨none, none⟩ rcInit [("c", ⟨1, "n", "t"⟩)] 5 []
    ∧ (getPostsLoop ⟨none, none⟩ 5 ⟨["k"], rcInit, .pending⟩
          [⟨false, true, 3, some "k", true⟩]).1.urls =
        (getPostsLoop ⟨none, none⟩ 5
          ⟨["k"], (postClassify ⟨none, none⟩ ⟨false, true, 3, some "k", true⟩ rcInit).2,
            .pending⟩ []).1.urls := by
  refine ⟨?_, ?_, ?_⟩
  · exact c8_idempotent_insert.1 _ _ "u" rfl (by decide)
  · exact c8_idempotent_insert.2.1 _ _ _ 5 _ _ (by decide)
  · exact c8_idempotent_insert.2.2 _ 5 _ _ _ "k" rfl (by decide) (by decide) rfl

/-- C4 counterexample: the review-discovery observer escalates a 302
to `Redirected to login` even though its target url carries no login
marker (in either flow's marker sense), refuting the claimed
"if and only if" for every flow. -/
theorem c4_reviews_302_always_fatal :
    (interceptAjaxReviewsStep ⟨Gate.pending, true⟩
        ⟨302, "https://m.facebook.com/pg/biz/"⟩).1.gate
      = Gate.rejected FbErr.redirectedToLogin
    ∧ postsLoginMarker "https://m.facebook.com/pg/biz/" = false
    ∧ commentsLoginMarker "https://m.facebook.com/pg/biz/" = false := by
  refine ⟨rfl, by decide, by decide⟩

/-- C4 (amended): in the post-discovery and comment-discovery
observers a 302 is escalated to `Redirected to login` exactly when the
url carries that flow's login markers, and is otherwise processed
further; the review-discovery observer escalates every 302 without
inspecting the url. -/
theorem c4_login_redirect_amended :
    (∀ url : String, postsStatusCheck 302 url =
        (if postsLoginMarker url then StatusAction.throwLoginRedirect else StatusAction.keep))
    ∧ (∀ url : String, commentsStatusCheck 302 url =
        (if commentsLoginMarker url then StatusAction.throwLoginRedirect
          else StatusAction.keep))
    ∧ reviewsStatusCheck 302 = StatusAction.throwLoginRedirect := by
  refine ⟨?_, ?_, rfl⟩
  · intro url
    by_cases hm : postsLoginMarker url = true <;> simp [postsStatusCheck, hm]
  · intro url
    by_cases hm : commentsLoginMarker url = true <;> simp [commentsStatusCheck, hm]

/-- C9 counterexample: the post-discovery observer has no
gate-settled/page-closed guard — on an error-marked json response
arriving after the Completion Gate has resolved it still increments
the rate-limit counter and sleeps. -/
theorem c9_posts_observer_ignores_settled_gate :
    (interceptAjaxStep ⟨0, Gate.resolved, true⟩ ⟨true, some true, 200, "u"⟩).1.rateLimitCount
        = 1
    ∧ (interceptAjaxStep ⟨0, Gate.resolved, true⟩ ⟨true, some true, 200, "u"⟩).2
        = [ObsAction.sleep 30] := ⟨rfl, rfl⟩

/-- C9 (amended): the comment-discovery observer polls
`page.isClosed()` and the Completion Gate before anything else and
performs no side effect for a response arriving once either holds; the
post-discovery and review-discovery observers perform no such poll. -/
theorem c9_settled_gate_guard_amended (w : DateWindow) (s : CommentsState)
    (e : GraphQlEvent) (h : (e.closedNow || s.gate.settled) = true) :
    interceptGrapQLStep w s e = (s, []) := by
  unfold interceptGrapQLStep
  rw [if_pos h]

/-- C9 witness: the guard fires on a concrete settled-gate state. -/
theorem c9_settled_gate_guard_amended_witness :
    interceptGrapQLStep unboundedWindow settledCommentsState
        ⟨false, "api/graphql/x", some ⟨true, none⟩, 200⟩
      = (settledCommentsState, []) :=
  c9_settled_gate_guard_amended unboundedWindow settledCommentsState _ rfl

/-- C3: in the post-discovery and comment-discovery response
observers, each error-marked payload increments the consecutive-error
counter; while the counter is 20 or below the observer sleeps
`counter * 30` ms and accepts no data from that response, the 21st
consecutive error raises the fatal `Rate limited` error (20 never do),
and any non-error payload resets the counter to 0. -/
theorem c3_rate_limit_threshold :
    (∀ k : Nat, afterErrors k = k)
    ∧ (∀ k : Nat, k < 20 → rateLimitBump k = (k + 1, RLOutcome.sleepFor ((k + 1) * 30)))
    ∧ rateLimitBump 20 = (21, RLOutcome.throwRateLimited)
    ∧ (∀ (w : DateWindow) (s : CommentsState) (e : GraphQlEvent) (j : FbGraphQlPayload),
        (e.closedNow || s.gate.settled) = false →
        (includesStr e.url "api/graphql/" && s.canStartAdding) = true →
        e.json = some j → j.errored = true →
        (interceptGrapQLStep w s e).1.comments = s.comments ∧
          (interceptGrapQLStep w s e).1.rateLimitCount = s.rateLimitCount + 1)
    ∧ (∀ (w : DateWindow) (s : CommentsState) (e : GraphQlEvent) (j : FbGraphQlPayload),
        (e.closedNow || s.gate.settled) = false →
        (includesStr e.url "api/graphql/" && s.canStartAdding) = true →
        e.json = some j → j.errored = false →
        (interceptGrapQLStep w s e).1.rateLimitCount = 0)
    ∧ (∀ (s : PostsObs) (e : AjaxEvent), e.contentTypeJson = true → e.body = some true →
        (interceptAjaxStep s e).1.rateLimitCount = s.rateLimitCount + 1)
    ∧ (∀ (s : PostsObs) (e : AjaxEvent), e.contentTypeJson = true → e.body = some false →
        (interceptAjaxStep s e).1.rateLimitCount = 0) := by
  refine ⟨?_, ?_, ?_, ?_, ?_, ?_, ?_⟩
  · intro k
    induction k with
    | zero => rfl
    | succ n ih => simp [afterErrors, rateLimitBump_fst, ih]
  · intro k hk
    unfold rateLimitBump
    have : ¬ k + 1 > 20 := by omega
    simp [this]
  · rfl
  · intro w s e j hg hu hj herr
    unfold interceptGrapQLStep
    rw [if_neg (by simp [hg])]
    rw [(applyStepFlow_fields e (graphqlInner w s e)).2.1,
      (applyStepFlow_fields e (graphqlInner w s e)).2.2.2]
    unfold graphqlInner
    rw [if_pos hu, hj]
    rcases hb : rateLimitBump s.rateLimitCount with ⟨c, o⟩
    have hc : c = s.rateLimitCount + 1 := by
      have := rateLimitBump_fst s.rateLimitCount
      rw [hb] at this
      exact this
    cases o <;> simp [herr, hb, hc, StepFlow.st]
  · intro w s e j hg hu hj herr
    unfold interceptGrapQLStep
    rw [if_neg (by simp [hg])]
    rw [(applyStepFlow_fields e (graphqlInner w s e)).2.2.2]
    unfold graphqlInner
    rw [if_pos hu, hj]
    cases hd : j.display_comments with
    | none => simp [herr, hd, StepFlow.st]
    | some data => simp [herr, hd, StepFlow.st, processDisplay_rlc]
  · intro s e hjson hbody
    unfold interceptAjaxStep
    rw [hbody, hjson]
    rcases hb : rateLimitBump s.rateLimitCount with ⟨c, o⟩
    have hc : c = s.rateLimitCount + 1 := by
      have := rateLimitBump_fst s.rateLimitCount
      rw [hb] at this
      exact this
    cases o <;> simp [hb, hc]
  · intro s e hjson hbody
    unfold interceptAjaxStep
    rw [hbody, hjson]
    simp only [Bool.true_and]
    cases hsc : postsStatusCheck e.status e.url <;> simp [hsc]

/-- C3 witness: the 19-errors-so-far bump sleeps 600 ms; a concrete
errored GraphQL payload bumps the count and leaves the accumulator
alone; a concrete error-marked json response bumps the post observer's
count. -/
theorem c3_rate_limit_threshold_witness :
    rateLimitBump 19 = (20, RLOutcome.sleepFor 600)
    ∧ ((interceptGrapQLStep unboundedWindow (initCommentsState 5 [])
          ⟨false, "api/graphql/x", some ⟨true, none⟩, 200⟩).1.comments = []
        ∧ (interceptGrapQLStep unboundedWindow (initCommentsState 5 [])
          ⟨false, "api/graphql/x", some ⟨true, none⟩, 200⟩).1.rateLimitCount = 0 + 1)
    ∧ (interceptAjaxStep ⟨3, Gate.pending, true⟩
        ⟨true, some true, 200, "u"⟩).1.rateLimitCount = 3 + 1 := by
  refine ⟨?_, ?_, ?_⟩
  · exact c3_rate_limit_threshold.2.1 19 (by decide)
  · exact c3_rate_limit_threshold.2.2.2.1 unboundedWindow (initCommentsState 5 [])
      ⟨false, "api/graphql/x", some ⟨true, none⟩, 200⟩ ⟨true, none⟩ (by decide) (by decide)
      rfl rfl
  · exact c3_rate_limit_threshold.2.2.2.2.2.1 ⟨3, Gate.pending, true⟩
      ⟨true, some true, 200, "u"⟩ rfl rfl

/-- C5 counterexample: in the review flow an out-of-window review is
merged straight into the accumulator — no `time()` classification (nor
any other date check) happens before the merge. -/
theorem c5_reviews_merge_unclassified :
    ("u", (⟨some "u", 100, "t"⟩ : FbReview)) ∈
        (getReviewsFromPageRun 5 [] Gate.pending [⟨some "u", 100, "t"⟩]).1
    ∧ DateWindow.compareB ⟨some 0, some 10⟩ 100 = false := by
  exact ⟨by decide, by decide⟩

/-- C5 (amended): in post discovery every url merged into the
accumulator that was not already there comes from an item whose date
the window accepts (via `counter.time` for ordinary posts and
`date.compare` for pinned ones); in comment discovery every merged
comment passed `counter.time`; in review discovery items are merged
without any date classification and the window is applied only to the
processed list returned to the caller. -/
theorem c5_classifier_gates_merge_amended :
    (∀ (w : DateWindow) (mx : Nat) (st : PostsLoopState) (batch : List FtPost) (k : String),
        k ∈ (getPostsLoop w mx st batch).1.urls →
        k ∈ st.urls ∨ ∃ p, p ∈ batch ∧ p.parsedUrl = some k ∧ w.compareB p.publishTime = true)
    ∧ (∀ (w : DateWindow) (cnt : RangeCounterState) (m : List (String × FbComment))
        (mx : Nat) (nodes : List CommentNode) (kc : String × FbComment),
        kc ∈ (commentsEdgeLoop w cnt m mx nodes).2.1 →
        kc ∈ m ∨ ∃ p, p ∈ nodes ∧ p.id = kc.1 ∧ w.compareB p.created_time = true)
    ∧ (∀ (w : DateWindow) (reviews : List (String × FbReview)) (r : FbReview),
        r ∈ processedReviews w reviews → w.compareB r.date = true) := by
  refine ⟨?_, ?_, ?_⟩
  · intro w mx st batch k h
    exact getPostsLoop_mem w mx batch st k h
  · intro w cnt m mx nodes kc h
    exact commentsEdgeLoop_mem w nodes cnt m mx kc h
  · intro w reviews r h
    unfold processedReviews at h
    exact (List.mem_filter.mp h).2

/-- C5 witness: concrete in-window instances of all three parts. -/
theorem c5_classifier_gates_merge_amended_witness :
    ("k" ∈ (getPostsLoop unboundedWindow 5 ⟨["k"], rcInit, .pending⟩ []).1.urls
        ∨ ∃ p : FtPost, p ∈ ([] : List FtPost) ∧ p.parsedUrl = some "k"
            ∧ DateWindow.compareB unboundedWindow p.publishTime = true)
    ∧ (("c", (⟨2, "m", "x"⟩ : FbComment)) ∈ ([("c", (⟨2, "m", "x"⟩ : FbComment))])
        ∨ ∃ p : CommentNode, p ∈ ([] : List CommentNode) ∧ p.id = "c"
            ∧ DateWindow.compareB unboundedWindow p.created_time = true)
    ∧ DateWindow.compareB unboundedWindow 3 = true := by
  refine ⟨?_, ?_, ?_⟩
  · exact c5_classifier_gates_merge_amended.1 unboundedWindow 5 ⟨["k"], rcInit, .pending⟩ []
      "k" (by decide)
  · exact c5_classifier_gates_merge_amended.2.1 unboundedWindow rcInit
      [("c", ⟨2, "m", "x"⟩)] 5 [] ("c", ⟨2, "m", "x"⟩) (by decide)
  · exact c5_classifier_gates_merge_amended.2.2 unboundedWindow
      [("u", ⟨some "u", 3, "t"⟩)] ⟨some "u", 3, "t"⟩ (by decide)

/-- C6: when the idle-abort timer fires (`AbortError`) in
`getPostUrls`, the call completes as a non-error outcome returning the
accumulated size — unless the failure heuristic `calls > 0` and
`emptyCalls > totalSeen` holds on the counter at that moment, in which
case the call instead throws the fatal `Failed to load posts` error. -/
theorem c6_abort_heuristic (w : DateWindow) (mx : Nat) (seed : List String)
    (batches : List (List FtPost)) :
    ((getPostUrlsCall w (mx + 1) seed batches .abort).result
        = Except.error FbErr.failedToLoadPosts
      ↔ ((rcStats (postUrlsEngineFinal w (mx + 1) seed batches).counter).calls ≠ 0
          ∧ (rcStats (postUrlsEngineFinal w (mx + 1) seed batches).counter).empty
            > (rcStats (postUrlsEngineFinal w (mx + 1) seed batches).counter).total))
    ∧ ((getPostUrlsCall w (mx + 1) seed batches .abort).result
          = Except.error FbErr.failedToLoadPosts
        ∨ (getPostUrlsCall w (mx + 1) seed batches .abort).result
          = Except.ok (postUrlsEngineFinal w (mx + 1) seed batches).urls.length) := by
  simp only [getPostUrlsCall]
  rw [if_neg (Nat.succ_ne_zero mx)]
  by_cases hh : (rcStats (postUrlsEngineFinal w (mx + 1) seed batches).counter).calls ≠ 0
      ∧ (rcStats (postUrlsEngineFinal w (mx + 1) seed batches).counter).empty
        > (rcStats (postUrlsEngineFinal w (mx + 1) seed batches).counter).total
  · rw [if_pos hh]
    exact ⟨iff_of_true rfl hh, Or.inl rfl⟩
  · rw [if_neg hh]
    exact ⟨iff_of_false (fun h => Except.noConfusion h) hh, Or.inr rfl⟩

/-- C1 counterexample: a `getReviews` call with positive max whose
pre-engine initial fetch throws exits with an error without ever
writing `request.userData.reviews` — the write-back does not happen on
this exit path. -/
theorem c1_reviews_initial_fetch_skips_writeback :
    (getReviewsCall unboundedWindow 1 [("u1", ⟨some "u1", 5, "r"⟩)]
        (Except.error ()) [] .success).userDataReviews = none
    ∧ (getReviewsCall unboundedWindow 1 [("u1", ⟨some "u1", 5, "r"⟩)]
        (Except.error ()) [] .success).result = Except.error FbErr.selectorError :=
  ⟨rfl, rfl⟩

/-- C1 (amended): `getPostUrls` and `getPostComments` write the
accumulated items into `request.userData` on every exit path of the
engine (success, thrown fatal error, idle-abort); `getReviews` does so
on every exit path once its pre-engine initial fetch has completed,
while an exit caused by that initial fetch throwing skips the write —
on that path no new item has been accepted yet, so the caller-owned
snapshot still equals the accumulated state. -/
theorem c1_userdata_writeback_amended :
    (∀ (w : DateWindow) (mx : Nat) (seed : List String) (batches : List (List FtPost))
        (outcome : EngineOutcome),
        (getPostUrlsCall w (mx + 1) seed batches outcome).userDataUrls
          = some (postUrlsEngineFinal w (mx + 1) seed batches).urls)
    ∧ (∀ (w : DateWindow) (mx : Nat) (seed : List (String × FbComment))
        (events : List GraphQlEvent) (outcome : EngineOutcome),
        (getPostCommentsCall w (mx + 1) seed events outcome).userDataComments
          = some (commentsEngineFinal w (mx + 1) seed events).comments)
    ∧ (∀ (w : DateWindow) (mx : Nat) (seed : List (String × FbReview))
        (b0 : List FbReview) (batches : List (List FbReview)) (outcome : EngineOutcome),
        (getReviewsCall w (mx + 1) seed (Except.ok b0) batches outcome).userDataReviews
          = some (reviewsRunFinal (mx + 1) seed b0 batches).1)
    ∧ ((getReviewsCall unboundedWindow 2 [("u1", ⟨some "u1", 5, "r"⟩)]
          (Except.error ()) [] .abort).userDataReviews = none) := by
  refine ⟨?_, ?_, ?_, rfl⟩
  · intro w mx seed batches outcome
    simp only [getPostUrlsCall]
    rw [if_neg (Nat.succ_ne_zero mx)]
  · intro w mx seed events outcome
    simp only [getPostCommentsCall]
    rw [if_neg (Nat.succ_ne_zero mx)]
  · intro w mx seed b0 batches outcome
    simp only [getReviewsCall]
    rw [if_neg (Nat.succ_ne_zero mx)]

/-- C2: the response observer is detached on every exit path of
`getPostUrls` and `getPostComments`, and of `getReviews` whenever its
pre-engine initial fetch completes — but a `getReviews` call whose
initial fetch throws (page.ts:511, outside the `try/finally`)
propagates the exception with the observer still attached, violating
the unconditional-cleanup contract. -/
theorem c2_observer_detach_gap :
    (∀ (w : DateWindow) (mx : Nat) (seed : List String) (batches : List (List FtPost))
        (outcome : EngineOutcome),
        (getPostUrlsCall w (mx + 1) seed batches outcome).observerAttached = false)
    ∧ (∀ (w : DateWindow) (mx : Nat) (seed : List (String × FbComment))
        (events : List GraphQlEvent) (outcome : EngineOutcome),
        (getPostCommentsCall w (mx + 1) seed events outcome).observerAttached = false)
    ∧ (∀ (w : DateWindow) (mx : Nat) (seed : List (String × FbReview))
        (b0 : List FbReview) (batches : List (List FbReview)) (outcome : EngineOutcome),
        (getReviewsCall w (mx + 1) seed (Except.ok b0) batches outcome).observerAttached
          = false)
    ∧ ((getReviewsCall unboundedWindow 2 [] (Except.error ()) [] .success).observerAttached
        = true) := by
  refine ⟨?_, ?_, ?_, rfl⟩
  · intro w mx seed batches outcome
    simp only [getPostUrlsCall]
    rw [if_neg (Nat.succ_ne_zero mx)]
  · intro w mx seed events outcome
    simp only [getPostCommentsCall]
    rw [if_neg (Nat.succ_ne_zero mx)]
  · intro w mx seed b0 batches outcome
    simp only [getReviewsCall]
    rw [if_neg (Nat.succ_ne_zero mx)]

/-- C7 counterexample: in the review flow, a snapshot seeded with
exactly max items (max = 1) plus one new unique review overflows the
accumulator and the persisted state to max + 1 = 2 items — the merge
happens before the quota check. -/
theorem c7_reviews_seeded_at_max_overflow :
    (getReviewsCall unboundedWindow 1 [("u1", ⟨some "u1", 1, "a"⟩)]
        (Except.ok [⟨some "u2", 2, "b"⟩]) [] .success).userDataReviews
      = some [("u1", ⟨some "u1", 1, "a"⟩), ("u2", ⟨some "u2", 2, "b"⟩)]
    ∧ (reviewsRunFinal 1 [("u1", ⟨some "u1", 1, "a"⟩)] [⟨some "u2", 2, "b"⟩] []).1.length
      = 2 := by
  exact ⟨rfl, rfl⟩

/-- C7 (amended): the post-discovery and comment-discovery
accumulators never exceed the configured maximum (at any point along
the trace, hence in the persisted state) when the seeded snapshot has
at most max items; the review-discovery accumulator satisfies the
bound when the seeded snapshot has strictly fewer than max items,
while a snapshot of exactly max items can overflow to max + 1. -/
theorem c7_quota_bound_amended :
    (∀ (w : DateWindow) (mx : Nat) (seed : List String) (batches : List (List FtPost)),
        seed.length ≤ mx → (postUrlsEngineFinal w mx seed batches).urls.length ≤ mx)
    ∧ (∀ (w : DateWindow) (mx : Nat) (seed : List (String × FbComment))
        (events : List GraphQlEvent),
        seed.length ≤ mx → (commentsEngineFinal w mx seed events).comments.length ≤ mx)
    ∧ (∀ (mx : Nat) (seed : List (String × FbReview)) (b0 : List FbReview)
        (batches : List (List FbReview)),
        seed.length < mx → (reviewsRunFinal mx seed b0 batches).1.length ≤ mx) := by
  refine ⟨?_, ?_, ?_⟩
  · intro w mx seed batches h
    exact postUrlsEngineFinal_len w mx seed batches h
  · intro w mx seed events h
    unfold commentsEngineFinal
    exact commentsFold_len w mx events (initCommentsState mx seed)
      (by simpa [initCommentsState] using h) (by simp [initCommentsState])
  · intro mx seed b0 batches h
    exact reviewsRunFinal_len mx seed b0 batches h

/-- C7 witness: concrete quota-respecting runs of all three flows. -/
theorem c7_quota_bound_amended_witness :
    (postUrlsEngineFinal unboundedWindow 2 ["k"] []).urls.length ≤ 2
    ∧ (commentsEngineFinal unboundedWindow 2 [("c", ⟨1, "n", "t"⟩)] []).comments.length ≤ 2
    ∧ (reviewsRunFinal 2 [("u", ⟨some "u", 1, "a"⟩)] [] []).1.length ≤ 2 := by
  refine ⟨?_, ?_, ?_⟩
  · exact c7_quota_bound_amended.1 unboundedWindow 2 ["k"] [] (by decide)
  · exact c7_quota_bound_amended.2.1 unboundedWindow 2 [("c", ⟨1, "n", "t"⟩)] [] (by decide)
  · exact c7_quota_bound_amended.2.2 2 [("u", ⟨some "u", 1, "a"⟩)] [] [] (by decide)

/-- C10: for every `getPostComments` call with positive max, the
returned number is the largest upstream-reported
`display_comments.count` observed during the call (0 when no such
payload arrived), not the number of comments accumulated — in
particular it is 0 on a call that persisted a non-empty seeded
accumulator without observing any payload. -/
theorem c10_returns_display_count :
    (∀ (w : DateWindow) (mx : Nat) (seed : List (String × FbComment))
        (events : List GraphQlEvent),
        (getPostCommentsCall w (mx + 1) seed events .success).result
          = Except.ok (List.foldl Nat.max 0
              (observedDisplayCounts w (initCommentsState (mx + 1) seed) events)))
    ∧ ((getPostCommentsCall unboundedWindow 1 [("c1", ⟨3, "n", "t"⟩)] [] .success).result
          = Except.ok 0
        ∧ (getPostCommentsCall unboundedWindow 1 [("c1", ⟨3, "n", "t"⟩)] []
            .success).userDataComments = some [("c1", ⟨3, "n", "t"⟩)]) := by
  refine ⟨?_, rfl, rfl⟩
  intro w mx seed events
  simp only [getPostCommentsCall]
  rw [if_neg (Nat.succ_ne_zero mx)]
  simp only [Except.map]
  unfold commentsEngineFinal
  rw [commentsFold_count w events (initCommentsState (mx + 1) seed)]
  rfl

end FbScraper
